import Mathlib

/-!
Verification development for the event-store benchmarking harness
(`src/rust/bench-core` and `src/rust/cli`).

The Rust sources are shallowly embedded: machine integers (`u64`, `usize`)
become `Nat` (the benchmark loops never approach overflow and perform no
wrapping arithmetic), fallible operations return `Option`/`Except`, and the
`tokio` task loops become pure folds over an explicit trace of per-iteration
environment observations (operation outcome, measured latency, completion
instant).  Wall-clock instants are abstracted to `Nat` milliseconds: the code
compares `Instant` values only with `≤`/`<` and adds whole-second durations,
which the `Nat` model reflects exactly.
-/

/-- Model of the external `rand::rngs::StdRng` pseudo-random generator.
The `rand` crate is an external dependency, out of scope of the repository;
the properties relied on by `bench-core` are (a) `StdRng::seed_from_u64` is
a deterministic function of the seed, (b) `gen_range(0..n)` draws uniformly
from `[0, n)` and panics when the range is empty, (c) `gen_bool(0.2)` draws a
Bernoulli(0.2) coin.  It is modelled as a deterministic state machine with a
64-bit LCG advance; the draw-site semantics (which range / which coin) is
what the theorems below are about, never the particular bit stream. -/
structure StdRng where
  state : Nat
  deriving Repr, DecidableEq

/-- `StdRng::seed_from_u64(seed)`: the generator state is a pure function of
the seed. -/
def StdRng.seed_from_u64 (seed : Nat) : StdRng :=
  ⟨seed % 2 ^ 64⟩

/-- One advance of the modelled generator, returning the drawn 64-bit word. -/
def StdRng.next (r : StdRng) : Nat × StdRng :=
  let s := (6364136223846793005 * r.state + 1442695040888963407) % 2 ^ 64
  (s, ⟨s⟩)

/-- `rng.gen_bool(0.2)`: a Bernoulli(0.2) coin, modelled as one generator
advance tested against a fifth of the word range. -/
def StdRng.gen_bool_fifth (r : StdRng) : Bool × StdRng :=
  let (v, r1) := r.next
  (v % 5 == 0, r1)

/-- `rng.gen_range(0..n)`: uniform draw from `[0, n)`; `none` models the
`rand` panic on an empty range (`n = 0`). -/
def StdRng.gen_range (r : StdRng) (n : Nat) : Option (Nat × StdRng) :=
  if n = 0 then none
  else
    let (v, r1) := r.next
    some (v % n, r1)

/-- `workload.rs` `StreamsConfig`. -/
structure StreamsConfig where
  distribution : String
  unique_streams : Nat
  deriving Repr, DecidableEq

/-- `workload.rs` `SetupConfig`. -/
structure SetupConfig where
  events_to_prepopulate : Nat
  prepopulate_streams : Option Nat
  deriving Repr, DecidableEq

/-- `workload.rs` `Workload` (the `f64` field `conflict_rate` is modelled
over `ℚ`; no claim uses it). -/
structure Workload where
  name : String
  duration_seconds : Nat
  writers : Nat
  readers : Nat
  event_size_bytes : Nat
  streams : StreamsConfig
  setup : Option SetupConfig := none
  conflict_rate : Option ℚ := none
  durability : Option String := none

/-- `adapter.rs` `EventData`; `payload: Vec<u8>` becomes a list of bytes. -/
structure EventData where
  stream : String
  event_type : String
  payload : List Nat
  tags : List String
  deriving Repr, DecidableEq

/-- `adapter.rs` `ReadRequest`. -/
structure ReadRequest where
  stream : String
  from_offset : Option Nat
  limit : Option Nat
  deriving Repr, DecidableEq

/-- `metrics.rs` `RawSample`; `t_ms` is the abstract capture instant (the
code reads `Instant::now()` for the window test and `now_ms()` for the field
back to back; the embedding uses the single abstract instant for both). -/
structure RawSample where
  t_ms : Nat
  op : String
  latency_us : Nat
  ok : Bool
  deriving Repr, DecidableEq

/-- `metrics.rs` `LatencyRecorder`: the HDR histogram is modelled as the
multiset (list) of recorded microsecond values; `hist.len()` is the list
length and `hist.add` is concatenation, which is all the claims consume. -/
structure LatencyRecorder where
  hist : List Nat
  deriving Repr, DecidableEq

/-- `LatencyRecorder::new`. -/
def LatencyRecorder.new : LatencyRecorder := ⟨[]⟩

/-- `LatencyRecorder::record`: stores `max(us, 1)` (`metrics.rs` line 70). -/
def LatencyRecorder.record (r : LatencyRecorder) (dt_us : Nat) : LatencyRecorder :=
  ⟨r.hist ++ [max dt_us 1]⟩

/-- Model of Rust `str::to_lowercase` (per-character lowering; the
distribution names are ASCII, where Rust and this model agree). -/
def str_to_lower (s : String) : String :=
  String.mk (s.data.map Char.toLower)

/-- Drop leading whitespace characters; building block of the `str::trim`
model. -/
def ws_drop_leading : List Char → List Char
  | [] => []
  | c :: cs => if c.isWhitespace then ws_drop_leading cs else c :: cs

/-- Model of Rust `str::trim`: strip whitespace from both ends. -/
def str_trim (s : String) : String :=
  String.mk (((ws_drop_leading ((ws_drop_leading s.data).reverse)).reverse))

/-- Model of Rust `str::ends_with` on character lists. -/
def ends_with_chars (s suffix : List Char) : Bool :=
  if suffix.length ≤ s.length then s.drop (s.length - suffix.length) == suffix
  else false

/-- Model of Rust `str::ends_with`. -/
def str_ends_with (s suffix : String) : Bool :=
  ends_with_chars s.data suffix.data

/-- Model of the Rust slice `&s[..s.len() - n]` for ASCII strings (byte
indices coincide with character indices there). -/
def str_drop_right (s : String) (n : Nat) : String :=
  String.mk (s.data.take (s.data.length - n))

/-- `use_heavy_tail` flag: `wl.streams.distribution.to_lowercase() == "zipf"`
(`concurrent_writers.rs` line 45). -/
def use_heavy_tail (distribution : String) : Bool :=
  str_to_lower distribution == "zipf"

/-- `hot_set`: `100_u64.min(wl.streams.unique_streams.max(1))`
(`concurrent_writers.rs` line 46). -/
def hot_set (unique_streams : Nat) : Nat :=
  min 100 (max unique_streams 1)

/-- The per-iteration stream draw (`concurrent_writers.rs` lines 51-56,
identically `concurrent_readers.rs` lines 52-57 and `runner.rs` lines
110-115).  Rust's `&&` short-circuits, so `gen_bool` advances the generator
only under the zipf flag. -/
def pick_stream_idx (distribution : String) (unique_streams : Nat) (rng : StdRng) :
    Option (Nat × StdRng) :=
  if use_heavy_tail distribution then
    let (coin, rng1) := rng.gen_bool_fifth
    if coin then rng1.gen_range (hot_set unique_streams)
    else rng1.gen_range unique_streams
  else rng.gen_range unique_streams

/-- The `EventData` built by a writer iteration (`concurrent_writers.rs`
lines 58-63): zero payload of the configured size, type `"test"`, no tags. -/
def mk_write_event (size idx : Nat) : EventData :=
  { stream := "stream-" ++ toString idx
    event_type := "test"
    payload := List.replicate size 0
    tags := [] }

/-- The `ReadRequest` built by a reader iteration (`concurrent_readers.rs`
lines 59-63): no offset, limit 100. -/
def mk_read_request (idx : Nat) : ReadRequest :=
  { stream := "stream-" ++ toString idx
    from_offset := none
    limit := some 100 }

/-- Environment observations for one writer iteration: outcome of the
`append`, its measured latency in µs, and the instant observed right after
the call returns. -/
structure IterOutcome where
  ok : Bool
  dt_us : Nat
  now : Nat
  deriving Repr, DecidableEq

/-- State of one writer task (`concurrent_writers.rs` lines 43-83).
`draws` is a ghost trace of stream indices drawn, used to state determinism
of stream selection; it has no Rust counterpart. -/
structure WriterState where
  rng : StdRng
  recorder : LatencyRecorder
  samples : List RawSample
  draws : List Nat
  deriving Repr, DecidableEq

/-- One iteration of the writer loop body (`concurrent_writers.rs` lines
50-81): draw the stream index, perform the append (outcome supplied by the
environment `o`), and record histogram value and sample only when the
completion instant lies in `[ms, me]`.  `none` models the `rand` panic on an
empty draw range. -/
def writer_step (wl : Workload) (ms me : Nat) (st : WriterState) (o : IterOutcome) :
    Option WriterState :=
  match pick_stream_idx wl.streams.distribution wl.streams.unique_streams st.rng with
  | none => none
  | some (idx, rng1) =>
    let st1 : WriterState := { st with rng := rng1, draws := st.draws ++ [idx] }
    if ms ≤ o.now ∧ o.now ≤ me then
      some { st1 with
              recorder := st1.recorder.record o.dt_us
              samples := st1.samples ++ [⟨o.now, "append", o.dt_us, o.ok⟩] }
    else
      some st1

/-- The writer loop over a finite trace of iteration observations (the
`while Instant::now() < end_at` loop runs finitely many iterations; the
trace lists them). -/
def writer_run (wl : Workload) (ms me : Nat) : WriterState → List IterOutcome → Option WriterState
  | st, [] => some st
  | st, o :: rest =>
    match writer_step wl ms me st o with
    | none => none
    | some st1 => writer_run wl ms me st1 rest

/-- One writer task seeded with `StdRng::seed_from_u64(seed)`
(`concurrent_writers.rs` line 44), starting from an empty recorder. -/
def writer_task (wl : Workload) (seed ms me : Nat) (trace : List IterOutcome) :
    Option WriterState :=
  writer_run wl ms me ⟨StdRng.seed_from_u64 seed, LatencyRecorder.new, [], []⟩ trace

/-- The writer spawn loop (`concurrent_writers.rs` lines 38-42): task `i`
(dense indices from `enumerate`) is seeded `seed + i`; the head task uses
`seed`, the recursion shifts the seed by one. -/
def writers_tasks (wl : Workload) (seed ms me : Nat) :
    List (List IterOutcome) → Option (List WriterState)
  | [] => some []
  | tr :: rest =>
    match writer_task wl seed ms me tr with
    | none => none
    | some st =>
      match writers_tasks wl (seed + 1) ms me rest with
      | none => none
      | some sts => some (st :: sts)

/-- List concatenation of task-local lists; models sequentially merging the
per-task histograms (`overall.hist.add`, `concurrent_writers.rs` line 90) and
one interleaving of the shared sample buffer.  All claims about samples are
insensitive to buffer order, which the spec leaves unconstrained. -/
def cat {α : Type} : List (List α) → List α
  | [] => []
  | l :: ls => l ++ cat ls

/-- Result of a writers strategy execution, mirroring the tuple returned by
`ConcurrentWritersWorkflow::execute` plus the `events_read: 0` the runner
puts in the Summary for a writers run. -/
structure WritersResult where
  overall : LatencyRecorder
  events_written : Nat
  events_read : Nat
  samples : List RawSample
  deriving Repr, DecidableEq

/-- `ConcurrentWritersWorkflow::execute` (`concurrent_writers.rs` lines
27-96): run one task per writer trace, merge histograms, sum
`rec.hist.len()` into `events_written`, collect the shared samples. -/
def writers_execute (wl : Workload) (seed ms me : Nat)
    (traces : List (List IterOutcome)) : Option WritersResult :=
  match writers_tasks wl seed ms me traces with
  | none => none
  | some sts =>
    some { overall := ⟨cat (sts.map fun s => s.recorder.hist)⟩
           events_written := (sts.map fun s => s.recorder.hist.length).sum
           events_read := 0
           samples := cat (sts.map fun s => s.samples) }

/-- Environment observations for one reader iteration: `result` is
`some n` for `Ok(events)` with `events.len() = n`, `none` for `Err(_)`. -/
structure ReadOutcome where
  result : Option Nat
  dt_us : Nat
  now : Nat
  deriving Repr, DecidableEq

/-- State of one reader task (`concurrent_readers.rs` lines 44-91). -/
structure ReaderState where
  rng : StdRng
  recorder : LatencyRecorder
  total_events_read : Nat
  samples : List RawSample
  draws : List Nat
  deriving Repr, DecidableEq

/-- One iteration of the reader loop body (`concurrent_readers.rs` lines
51-90): draw the stream, perform the read; on success add the returned
event count to the task-local total (regardless of the window), on failure
add nothing; record histogram and sample only inside `[ms, me]` with
`ok = result.is_ok()`. -/
def reader_step (wl : Workload) (ms me : Nat) (st : ReaderState) (o : ReadOutcome) :
    Option ReaderState :=
  match pick_stream_idx wl.streams.distribution wl.streams.unique_streams st.rng with
  | none => none
  | some (idx, rng1) =>
    let ok := o.result.isSome
    let st1 : ReaderState :=
      { st with
        rng := rng1
        draws := st.draws ++ [idx]
        total_events_read := st.total_events_read + o.result.getD 0 }
    if ms ≤ o.now ∧ o.now ≤ me then
      some { st1 with
              recorder := st1.recorder.record o.dt_us
              samples := st1.samples ++ [⟨o.now, "read", o.dt_us, ok⟩] }
    else
      some st1

/-- The reader loop over a finite trace of iteration observations. -/
def reader_run (wl : Workload) (ms me : Nat) : ReaderState → List ReadOutcome → Option ReaderState
  | st, [] => some st
  | st, o :: rest =>
    match reader_step wl ms me st o with
    | none => none
    | some st1 => reader_run wl ms me st1 rest

/-- One reader task seeded `StdRng::seed_from_u64(seed)`
(`concurrent_readers.rs` line 45). -/
def reader_task (wl : Workload) (seed ms me : Nat) (trace : List ReadOutcome) :
    Option ReaderState :=
  reader_run wl ms me ⟨StdRng.seed_from_u64 seed, LatencyRecorder.new, 0, [], []⟩ trace

/-- The reader spawn loop (`concurrent_readers.rs` lines 39-43): task `i`
is seeded `seed + i`. -/
def readers_tasks (wl : Workload) (seed ms me : Nat) :
    List (List ReadOutcome) → Option (List ReaderState)
  | [] => some []
  | tr :: rest =>
    match reader_task wl seed ms me tr with
    | none => none
    | some st =>
      match readers_tasks wl (seed + 1) ms me rest with
      | none => none
      | some sts => some (st :: sts)

/-- Result of a readers strategy execution, mirroring the tuple
`(overall, 0, events_read, samples)` of `ConcurrentReadersWorkflow::execute`
(`concurrent_readers.rs` line 104). -/
structure ReadersResult where
  overall : LatencyRecorder
  events_written : Nat
  events_read : Nat
  samples : List RawSample
  deriving Repr, DecidableEq

/-- `ConcurrentReadersWorkflow::execute` (`concurrent_readers.rs` lines
27-105): merge histograms, sum the per-task `total_events_read` into
`events_read`, report `events_written = 0`. -/
def readers_execute (wl : Workload) (seed ms me : Nat)
    (traces : List (List ReadOutcome)) : Option ReadersResult :=
  match readers_tasks wl seed ms me traces with
  | none => none
  | some sts =>
    some { overall := ⟨cat (sts.map fun s => s.recorder.hist)⟩
           events_written := 0
           events_read := (sts.map fun s => s.total_events_read).sum
           samples := cat (sts.map fun s => s.samples) }

/-- The timing windows computed by the runner (`runner.rs` lines 61-70), in
milliseconds: 1 s warmup, the declared duration, 1 s cooldown. -/
structure RunClock where
  start_at : Nat
  measurement_start : Nat
  measurement_end : Nat
  end_at : Nat
  deriving Repr, DecidableEq

/-- `runner.rs` lines 63-70: `measurement_start = start_at + warmup`,
`measurement_end = measurement_start + duration`,
`end_at = start_at + (duration + warmup + cooldown)`. -/
def run_clock (start_at duration_seconds : Nat) : RunClock :=
  let warmup := 1000
  let cooldown := 1000
  let total := duration_seconds * 1000 + warmup + cooldown
  { start_at := start_at
    measurement_start := start_at + warmup
    measurement_end := start_at + warmup + duration_seconds * 1000
    end_at := start_at + total }

/-- Split a character list at the first dot, if any; models the integer/
fraction split performed by float parsing of a plain decimal literal. -/
def split_at_dot : List Char → List Char × Option (List Char)
  | [] => ([], none)
  | c :: cs =>
    if c = '.' then ([], some cs)
    else
      let (pre, post) := split_at_dot cs
      (c :: pre, post)

/-- Accumulate a digit string into a natural number; `none` on any
non-digit character. -/
def digits_to_nat (acc : Nat) : List Char → Option Nat
  | [] => some acc
  | c :: cs => if c.isDigit then digits_to_nat (acc * 10 + (c.toNat - 48)) cs else none

/-- Model of `num_str.parse::<f64>()` (`container_stats.rs` line 140) for
plain non-negative decimal literals, the only shape `docker stats` emits and
the only shape the claims exercise: at least one digit, at most one dot, no
sign, no exponent.  The parsed value is represented exactly as
`mantissa / 10 ^ scale`; for every input appearing in a theorem below the
`f64` computation in the code is also exact (the decimal and its product
with the power-of-two factor are representable in 53 bits), so this exact
model agrees with the code bit-for-bit there. -/
def parse_decimal (s : String) : Option (Nat × Nat) :=
  let (ip, fpOpt) := split_at_dot s.data
  match fpOpt with
  | none =>
    if ip.isEmpty then none
    else (digits_to_nat 0 ip).map fun n => (n, 0)
  | some fp =>
    if ip.isEmpty ∧ fp.isEmpty then none
    else
      match digits_to_nat 0 ip, digits_to_nat 0 fp with
      | some i, some f => some (i * 10 ^ fp.length + f, fp.length)
      | _, _ => none

/-- `container_stats.rs` `parse_memory_size` (lines 124-151): trim, try the
suffixes `GiB`, `MiB`, `KiB`, `B` in that order, parse the numeric head,
multiply by the factor and truncate to an integer (`as u64` truncates toward
zero; the head is non-negative, so this is the floor). -/
def parse_memory_size (s : String) : Option Nat :=
  let t := str_trim s
  let split : Option (String × Nat) :=
    if str_ends_with t "GiB" then some (str_drop_right t 3, 1024 ^ 3)
    else if str_ends_with t "MiB" then some (str_drop_right t 3, 1024 ^ 2)
    else if str_ends_with t "KiB" then some (str_drop_right t 3, 1024)
    else if str_ends_with t "B" then some (str_drop_right t 1, 1)
    else none
  match split with
  | none => none
  | some (numStr, factor) =>
    (parse_decimal numStr).map fun p => p.1 * factor / 10 ^ p.2

/-- The default `EventStoreAdapter::batch_append` (`adapter.rs` lines 61-66)
run against a pure per-event append outcome `ap`.  Returns the propagated
result together with the ordered list of events actually handed to `append`:
the `?` operator returns at the first failure, so nothing after it is
attempted. -/
def batch_append_run {ε : Type} (ap : EventData → Except ε Unit) :
    List EventData → Except ε Unit × List EventData
  | [] => (Except.ok (), [])
  | e :: rest =>
    match ap e with
    | Except.error err => (Except.error err, [e])
    | Except.ok _ =>
      ((batch_append_run ap rest).1, e :: (batch_append_run ap rest).2)

/-- Modelled from the spec: the strategy-accepting `run_workload` that the
CLI (`cli/src/main.rs` line 196) and the bench-core smoke test call with four
arguments is not among the source files; `runner.rs` holds an older
inline-writers variant with no setup phase, and only the `SetupConfig`
declaration is present.  Spec section 4.5 step 2: the number of prepopulated
streams is `setup.prepopulate_streams ?? workload.streams.unique_streams`. -/
def setup_num_streams (setup : SetupConfig) (unique_streams : Nat) : Nat :=
  setup.prepopulate_streams.getD unique_streams

/-- Modelled from the spec (see `setup_num_streams`):
`events_per_stream = ceil(events_to_prepopulate / num_streams)`. -/
def setup_events_per_stream (setup : SetupConfig) (unique_streams : Nat) : Nat :=
  let n := setup_num_streams setup unique_streams
  (setup.events_to_prepopulate + n - 1) / n

/-- Modelled from the spec: one fixed-payload setup event for `stream-{i}`. -/
def mk_setup_event (payload_size i : Nat) : EventData :=
  { stream := "stream-" ++ toString i
    event_type := "test"
    payload := List.replicate payload_size 0
    tags := [] }

/-- Modelled from the spec: the inner/outer setup loops — for each stream
index `i` below the countdown bound, append `eps` fixed-payload events; the
recursion keeps the stream blocks in ascending order of `i`, which is the
sequential order of the appends on the single setup client. -/
def setup_streams_loop (payload_size eps : Nat) : Nat → List EventData
  | 0 => []
  | i + 1 => setup_streams_loop payload_size eps i ++
      List.replicate eps (mk_setup_event payload_size (i))

/-- Modelled from the spec: the full ordered list of appends the setup phase
issues on its one client. -/
def setup_phase_appends (setup : SetupConfig) (unique_streams payload_size : Nat) :
    List EventData :=
  setup_streams_loop payload_size (setup_events_per_stream setup unique_streams)
    (setup_num_streams setup unique_streams)

/-- The sequence of the first `k` stream indices a task draws, as a function
of the generator state alone (`none` when a draw hits an empty range). -/
def stream_idx_seq (distribution : String) (unique_streams : Nat) :
    StdRng → Nat → Option (List Nat)
  | _, 0 => some []
  | rng, k + 1 =>
    match pick_stream_idx distribution unique_streams rng with
    | none => none
    | some (idx, rng1) =>
      (stream_idx_seq distribution unique_streams rng1 k).map fun l => idx :: l

lemma StdRng.gen_range_of_ne_zero (r : StdRng) {n : Nat} (h : n ≠ 0) :
    r.gen_range n = some (r.next.1 % n, r.next.2) := by
  unfold StdRng.gen_range
  simp [h]

lemma hot_set_pos (us : Nat) : 1 ≤ hot_set us := by
  unfold hot_set
  omega

lemma hot_set_of_pos {us : Nat} (h : 1 ≤ us) : hot_set us = min 100 us := by
  unfold hot_set
  omega

lemma hot_set_le {us : Nat} (h : 1 ≤ us) : hot_set us ≤ us := by
  unfold hot_set
  omega

lemma pick_stream_idx_lt (d : String) {us : Nat} (hus : 1 ≤ us) (rng : StdRng) :
    ∃ idx rng1, pick_stream_idx d us rng = some (idx, rng1) ∧ idx < us := by
  unfold pick_stream_idx
  by_cases hd : use_heavy_tail d = true
  · rw [if_pos hd]
    rcases hcoin : rng.gen_bool_fifth with ⟨coin, rng1⟩
    cases coin
    · refine ⟨rng1.next.1 % us, rng1.next.2, ?_, Nat.mod_lt _ (by omega)⟩
      simp [rng1.gen_range_of_ne_zero (by omega : us ≠ 0)]
    · refine ⟨rng1.next.1 % hot_set us, rng1.next.2, ?_, ?_⟩
      · simp [rng1.gen_range_of_ne_zero (by have := hot_set_pos us; omega : hot_set us ≠ 0)]
      · exact lt_of_lt_of_le (Nat.mod_lt _ (hot_set_pos us)) (hot_set_le hus)
  · rw [if_neg hd]
    refine ⟨rng.next.1 % us, rng.next.2, ?_, Nat.mod_lt _ (by omega)⟩
    simp [rng.gen_range_of_ne_zero (by omega : us ≠ 0)]

lemma cat_length {α : Type} (ls : List (List α)) :
    (cat ls).length = (ls.map List.length).sum := by
  induction ls with
  | nil => rfl
  | cons l ls ih => simp [cat, ih]

lemma mem_cat {α : Type} {x : α} {ls : List (List α)} :
    x ∈ cat ls ↔ ∃ l ∈ ls, x ∈ l := by
  induction ls with
  | nil => simp [cat]
  | cons l ls ih => simp [cat, ih]

lemma writer_step_some (wl : Workload) (ms me : Nat) (st st' : WriterState)
    (o : IterOutcome) (h : writer_step wl ms me st o = some st') :
    ∃ idx rng1,
      pick_stream_idx wl.streams.distribution wl.streams.unique_streams st.rng
        = some (idx, rng1) ∧
      ((ms ≤ o.now ∧ o.now ≤ me) ∧
          st' = ⟨rng1, ⟨st.recorder.hist ++ [max o.dt_us 1]⟩,
            st.samples ++ [⟨o.now, "append", o.dt_us, o.ok⟩], st.draws ++ [idx]⟩ ∨
        ¬(ms ≤ o.now ∧ o.now ≤ me) ∧
          st' = ⟨rng1, st.recorder, st.samples, st.draws ++ [idx]⟩) := by
  unfold writer_step at h
  rcases hp : pick_stream_idx wl.streams.distribution wl.streams.unique_streams st.rng with
    _ | ⟨idx, rng1⟩ <;> rw [hp] at h <;> dsimp only at h
  · exact absurd h (by simp)
  · refine ⟨idx, rng1, rfl, ?_⟩
    by_cases hw : ms ≤ o.now ∧ o.now ≤ me
    · rw [if_pos hw] at h
      injection h with h
      subst h
      exact Or.inl ⟨hw, rfl⟩
    · rw [if_neg hw] at h
      injection h with h
      subst h
      exact Or.inr ⟨hw, rfl⟩

lemma reader_step_some (wl : Workload) (ms me : Nat) (st st' : ReaderState)
    (o : ReadOutcome) (h : reader_step wl ms me st o = some st') :
    ∃ idx rng1,
      pick_stream_idx wl.streams.distribution wl.streams.unique_streams st.rng
        = some (idx, rng1) ∧
      ((ms ≤ o.now ∧ o.now ≤ me) ∧
          st' = ⟨rng1, ⟨st.recorder.hist ++ [max o.dt_us 1]⟩,
            st.total_events_read + o.result.getD 0,
            st.samples ++ [⟨o.now, "read", o.dt_us, o.result.isSome⟩],
            st.draws ++ [idx]⟩ ∨
        ¬(ms ≤ o.now ∧ o.now ≤ me) ∧
          st' = ⟨rng1, st.recorder, st.total_events_read + o.result.getD 0,
            st.samples, st.draws ++ [idx]⟩) := by
  unfold reader_step at h
  rcases hp : pick_stream_idx wl.streams.distribution wl.streams.unique_streams st.rng with
    _ | ⟨idx, rng1⟩ <;> rw [hp] at h <;> dsimp only at h
  · exact absurd h (by simp)
  · refine ⟨idx, rng1, rfl, ?_⟩
    by_cases hw : ms ≤ o.now ∧ o.now ≤ me
    · rw [if_pos hw] at h
      injection h with h
      subst h
      exact Or.inl ⟨hw, rfl⟩
    · rw [if_neg hw] at h
      injection h with h
      subst h
      exact Or.inr ⟨hw, rfl⟩

lemma writer_run_provenance (wl : Workload) (ms me : Nat) :
    ∀ (tr : List IterOutcome) (st st' : WriterState),
      writer_run wl ms me st tr = some st' →
      (∀ s ∈ st'.samples, s ∈ st.samples ∨
        ∃ o ∈ tr, (ms ≤ o.now ∧ o.now ≤ me) ∧
          s = RawSample.mk o.now "append" o.dt_us o.ok) ∧
      (∀ v ∈ st'.recorder.hist, v ∈ st.recorder.hist ∨
        ∃ o ∈ tr, v = max o.dt_us 1) := by
  intro tr
  induction tr with
  | nil =>
    intro st st' h
    injection h with h
    subst h
    exact ⟨fun s hs => Or.inl hs, fun v hv => Or.inl hv⟩
  | cons o rest ih =>
    intro st st' h
    unfold writer_run at h
    rcases hstep : writer_step wl ms me st o with _ | st1 <;> rw [hstep] at h
    · exact absurd h (by simp)
    · obtain ⟨hs, hv⟩ := ih st1 st' h
      obtain ⟨idx, rng1, -, hcase⟩ := writer_step_some wl ms me st st1 o hstep
      constructor
      · intro s hs'
        rcases hs s hs' with h1 | ⟨o2, ho2, h2⟩
        · rcases hcase with ⟨hw, rfl⟩ | ⟨hw, rfl⟩
          · rcases List.mem_append.mp h1 with h3 | h3
            · exact Or.inl h3
            · refine Or.inr ⟨o, List.mem_cons_self o rest, hw, ?_⟩
              simpa using h3
          · exact Or.inl h1
        · exact Or.inr ⟨o2, List.mem_cons_of_mem o ho2, h2⟩
      · intro v hv'
        rcases hv v hv' with h1 | ⟨o2, ho2, h2⟩
        · rcases hcase with ⟨hw, rfl⟩ | ⟨hw, rfl⟩
          · rcases List.mem_append.mp h1 with h3 | h3
            · exact Or.inl h3
            · refine Or.inr ⟨o, List.mem_cons_self o rest, ?_⟩
              simpa using h3
          · exact Or.inl h1
        · exact Or.inr ⟨o2, List.mem_cons_of_mem o ho2, h2⟩

lemma reader_run_provenance (wl : Workload) (ms me : Nat) :
    ∀ (tr : List ReadOutcome) (st st' : ReaderState),
      reader_run wl ms me st tr = some st' →
      (∀ s ∈ st'.samples, s ∈ st.samples ∨
        ∃ o ∈ tr, (ms ≤ o.now ∧ o.now ≤ me) ∧
          s = RawSample.mk o.now "read" o.dt_us o.result.isSome) ∧
      (∀ v ∈ st'.recorder.hist, v ∈ st.recorder.hist ∨
        ∃ o ∈ tr, v = max o.dt_us 1) := by
  intro tr
  induction tr with
  | nil =>
    intro st st' h
    injection h with h
    subst h
    exact ⟨fun s hs => Or.inl hs, fun v hv => Or.inl hv⟩
  | cons o rest ih =>
    intro st st' h
    unfold reader_run at h
    rcases hstep : reader_step wl ms me st o with _ | st1 <;> rw [hstep] at h
    · exact absurd h (by simp)
    · obtain ⟨hs, hv⟩ := ih st1 st' h
      obtain ⟨idx, rng1, -, hcase⟩ := reader_step_some wl ms me st st1 o hstep
      constructor
      · intro s hs'
        rcases hs s hs' with h1 | ⟨o2, ho2, h2⟩
        · rcases hcase with ⟨hw, rfl⟩ | ⟨hw, rfl⟩
          · rcases List.mem_append.mp h1 with h3 | h3
            · exact Or.inl h3
            · refine Or.inr ⟨o, List.mem_cons_self o rest, hw, ?_⟩
              simpa using h3
          · exact Or.inl h1
        · exact Or.inr ⟨o2, List.mem_cons_of_mem o ho2, h2⟩
      · intro v hv'
        rcases hv v hv' with h1 | ⟨o2, ho2, h2⟩
        · rcases hcase with ⟨hw, rfl⟩ | ⟨hw, rfl⟩
          · rcases List.mem_append.mp h1 with h3 | h3
            · exact Or.inl h3
            · refine Or.inr ⟨o, List.mem_cons_self o rest, ?_⟩
              simpa using h3
          · exact Or.inl h1
        · exact Or.inr ⟨o2, List.mem_cons_of_mem o ho2, h2⟩

lemma stream_idx_seq_zero (d : String) (us : Nat) (rng : StdRng) :
    stream_idx_seq d us rng 0 = some [] := rfl

lemma stream_idx_seq_succ (d : String) (us : Nat) (rng : StdRng) (k : Nat) :
    stream_idx_seq d us rng (k + 1) =
      (pick_stream_idx d us rng).bind
        fun p => (stream_idx_seq d us p.2 k).map fun l => p.1 :: l := by
  rcases hp : pick_stream_idx d us rng with _ | ⟨idx, rng1⟩ <;>
    simp [stream_idx_seq, hp]

lemma writer_run_draws (wl : Workload) (ms me : Nat) :
    ∀ (tr : List IterOutcome) (st st' : WriterState),
      writer_run wl ms me st tr = some st' →
      ∃ l, stream_idx_seq wl.streams.distribution wl.streams.unique_streams st.rng tr.length
            = some l ∧
        st'.draws = st.draws ++ l := by
  intro tr
  induction tr with
  | nil =>
    intro st st' h
    injection h with h
    subst h
    exact ⟨[], rfl, by simp⟩
  | cons o rest ih =>
    intro st st' h
    unfold writer_run at h
    rcases hstep : writer_step wl ms me st o with _ | st1 <;> rw [hstep] at h
    · exact absurd h (by simp)
    · obtain ⟨idx, rng1, hp, hcase⟩ := writer_step_some wl ms me st st1 o hstep
      have hrng : st1.rng = rng1 := by
        rcases hcase with ⟨-, rfl⟩ | ⟨-, rfl⟩ <;> rfl
      have hdraws : st1.draws = st.draws ++ [idx] := by
        rcases hcase with ⟨-, rfl⟩ | ⟨-, rfl⟩ <;> rfl
      obtain ⟨l, hl, hd⟩ := ih st1 st' h
      rw [hrng] at hl
      refine ⟨idx :: l, ?_, ?_⟩
      · rw [List.length_cons, stream_idx_seq_succ, hp]
        simp [hl]
      · rw [hd, hdraws]
        simp

lemma reader_run_draws (wl : Workload) (ms me : Nat) :
    ∀ (tr : List ReadOutcome) (st st' : ReaderState),
      reader_run wl ms me st tr = some st' →
      ∃ l, stream_idx_seq wl.streams.distribution wl.streams.unique_streams st.rng tr.length
            = some l ∧
        st'.draws = st.draws ++ l := by
  intro tr
  induction tr with
  | nil =>
    intro st st' h
    injection h with h
    subst h
    exact ⟨[], rfl, by simp⟩
  | cons o rest ih =>
    intro st st' h
    unfold reader_run at h
    rcases hstep : reader_step wl ms me st o with _ | st1 <;> rw [hstep] at h
    · exact absurd h (by simp)
    · obtain ⟨idx, rng1, hp, hcase⟩ := reader_step_some wl ms me st st1 o hstep
      have hrng : st1.rng = rng1 := by
        rcases hcase with ⟨-, rfl⟩ | ⟨-, rfl⟩ <;> rfl
      have hdraws : st1.draws = st.draws ++ [idx] := by
        rcases hcase with ⟨-, rfl⟩ | ⟨-, rfl⟩ <;> rfl
      obtain ⟨l, hl, hd⟩ := ih st1 st' h
      rw [hrng] at hl
      refine ⟨idx :: l, ?_, ?_⟩
      · rw [List.length_cons, stream_idx_seq_succ, hp]
        simp [hl]
      · rw [hd, hdraws]
        simp

lemma stream_idx_seq_take (d : String) (us : Nat) :
    ∀ (k : Nat) (rng : StdRng) (n : Nat) (l : List Nat),
      stream_idx_seq d us rng n = some l → k ≤ n →
      stream_idx_seq d us rng k = some (l.take k) := by
  intro k
  induction k with
  | zero => intro rng n l _ _; rfl
  | succ k ih =>
    intro rng n l h hk
    rcases n with _ | n
    · omega
    · rw [stream_idx_seq_succ] at h
      rcases hp : pick_stream_idx d us rng with _ | ⟨idx, rng1⟩ <;> rw [hp] at h
      · exact absurd h (by simp)
      · dsimp only [Option.bind] at h
        rcases hrest : stream_idx_seq d us rng1 n with _ | l1 <;> rw [hrest] at h
        · exact absurd h (by simp)
        · simp only [Option.map_some'] at h
          injection h with h
          subst h
          rw [stream_idx_seq_succ, hp]
          dsimp only [Option.bind]
          rw [ih rng1 n l1 hrest (by omega)]
          simp

lemma writer_run_cons (wl : Workload) (ms me : Nat) (st st1 : WriterState)
    (o : IterOutcome) (rest : List IterOutcome)
    (h : writer_step wl ms me st o = some st1) :
    writer_run wl ms me st (o :: rest) = writer_run wl ms me st1 rest := by
  unfold writer_run
  rw [h]
  rcases rest with _ | ⟨o2, rest⟩ <;> rfl

lemma reader_run_cons (wl : Workload) (ms me : Nat) (st st1 : ReaderState)
    (o : ReadOutcome) (rest : List ReadOutcome)
    (h : reader_step wl ms me st o = some st1) :
    reader_run wl ms me st (o :: rest) = reader_run wl ms me st1 rest := by
  unfold reader_run
  rw [h]
  rcases rest with _ | ⟨o2, rest⟩ <;> rfl

lemma writers_tasks_get (wl : Workload) (ms me : Nat) :
    ∀ (traces : List (List IterOutcome)) (seed : Nat) (sts : List WriterState),
      writers_tasks wl seed ms me traces = some sts →
      sts.length = traces.length ∧
      ∀ i tr, traces.get? i = some tr →
        ∃ st, writer_task wl (seed + i) ms me tr = some st ∧ sts.get? i = some st := by
  intro traces
  induction traces with
  | nil =>
    intro seed sts h
    injection h with h
    subst h
    refine ⟨rfl, ?_⟩
    intro i tr h
    simp [List.get?] at h
  | cons tr rest ih =>
    intro seed sts h
    unfold writers_tasks at h
    rcases h1 : writer_task wl seed ms me tr with _ | st <;> rw [h1] at h
    · exact absurd h (by simp)
    · rcases h2 : writers_tasks wl (seed + 1) ms me rest with _ | sts' <;> rw [h2] at h
      · exact absurd h (by simp)
      · injection h with h
        subst h
        obtain ⟨hlen, hget⟩ := ih (seed + 1) sts' h2
        refine ⟨by simp [hlen], ?_⟩
        intro i tr0 hi
        rcases i with _ | i
        · injection hi with hi
          subst hi
          exact ⟨st, by simpa using h1, rfl⟩
        · have hi' : rest.get? i = some tr0 := hi
          obtain ⟨st0, hst0, hg0⟩ := hget i tr0 hi'
          refine ⟨st0, ?_, hg0⟩
          have : seed + 1 + i = seed + (i + 1) := by omega
          rwa [this] at hst0

lemma readers_tasks_get (wl : Workload) (ms me : Nat) :
    ∀ (traces : List (List ReadOutcome)) (seed : Nat) (sts : List ReaderState),
      readers_tasks wl seed ms me traces = some sts →
      sts.length = traces.length ∧
      ∀ i tr, traces.get? i = some tr →
        ∃ st, reader_task wl (seed + i) ms me tr = some st ∧ sts.get? i = some st := by
  intro traces
  induction traces with
  | nil =>
    intro seed sts h
    injection h with h
    subst h
    refine ⟨rfl, ?_⟩
    intro i tr h
    simp [List.get?] at h
  | cons tr rest ih =>
    intro seed sts h
    unfold readers_tasks at h
    rcases h1 : reader_task wl seed ms me tr with _ | st <;> rw [h1] at h
    · exact absurd h (by simp)
    · rcases h2 : readers_tasks wl (seed + 1) ms me rest with _ | sts' <;> rw [h2] at h
      · exact absurd h (by simp)
      · injection h with h
        subst h
        obtain ⟨hlen, hget⟩ := ih (seed + 1) sts' h2
        refine ⟨by simp [hlen], ?_⟩
        intro i tr0 hi
        rcases i with _ | i
        · injection hi with hi
          subst hi
          exact ⟨st, by simpa using h1, rfl⟩
        · have hi' : rest.get? i = some tr0 := hi
          obtain ⟨st0, hst0, hg0⟩ := hget i tr0 hi'
          refine ⟨st0, ?_, hg0⟩
          have : seed + 1 + i = seed + (i + 1) := by omega
          rwa [this] at hst0

/-- C8: the memory-size parser checks the suffixes `GiB`, `MiB`, `KiB`, `B`
in that order against the factors `1024^3`, `1024^2`, `1024`, `1`, and fails
on any unknown suffix (no suffix matches); in particular it maps `1.5GiB`,
`512MiB`, `1024KiB`, `7B` to `1610612736`, `536870912`, `1048576`, `7`
respectively, and fails on `"1.0XB"` (the `B` suffix matches but the numeric
head `"1.0X"` does not parse). -/
theorem claim_C8 (s : String)
    (h1 : str_ends_with (str_trim s) "GiB" = false)
    (h2 : str_ends_with (str_trim s) "MiB" = false)
    (h3 : str_ends_with (str_trim s) "KiB" = false)
    (h4 : str_ends_with (str_trim s) "B" = false) :
    parse_memory_size s = none ∧
    parse_memory_size "1.5GiB" = some 1610612736 ∧
    parse_memory_size "512MiB" = some 536870912 ∧
    parse_memory_size "1024KiB" = some 1048576 ∧
    parse_memory_size "7B" = some 7 ∧
    parse_memory_size "1.0XB" = none := by
  refine ⟨?_, by decide, by decide, by decide, by decide, by decide⟩
  unfold parse_memory_size
  simp [h1, h2, h3, h4]

/-- Witness for C8 at the concrete unknown-suffix input `"1.0X"`. -/
theorem claim_C8_witness :
    str_ends_with (str_trim "1.0X") "GiB" = false ∧
    str_ends_with (str_trim "1.0X") "MiB" = false ∧
    str_ends_with (str_trim "1.0X") "KiB" = false ∧
    str_ends_with (str_trim "1.0X") "B" = false ∧
    (parse_memory_size "1.0X" = none ∧
      parse_memory_size "1.5GiB" = some 1610612736 ∧
      parse_memory_size "512MiB" = some 536870912 ∧
      parse_memory_size "1024KiB" = some 1048576 ∧
      parse_memory_size "7B" = some 7 ∧
      parse_memory_size "1.0XB" = none) :=
  ⟨by decide, by decide, by decide, by decide,
    claim_C8 "1.0X" (by decide) (by decide) (by decide) (by decide)⟩

/-- C9: the default `batch_append` appends the given events sequentially via
`append` and stops at the first failure, propagating that failure with no
further appends attempted; consequently `batch_append([e])` returns exactly
`append(e)`'s result and attempts exactly the one append, i.e. it is
observationally equivalent to `append(e)`. -/
theorem claim_C9 {ε : Type} (ap : EventData → Except ε Unit)
    (pre post : List EventData) (f : EventData) (err : ε)
    (hpre : ∀ e ∈ pre, ap e = Except.ok ())
    (hf : ap f = Except.error err) :
    batch_append_run ap (pre ++ f :: post) = (Except.error err, pre ++ [f]) ∧
    ∀ e, batch_append_run ap [e] = (ap e, [e]) := by
  constructor
  · induction pre with
    | nil => simp [batch_append_run, hf]
    | cons e rest ih =>
      have he : ap e = Except.ok () := hpre e (List.mem_cons_self e rest)
      have ih' := ih fun e2 he2 => hpre e2 (List.mem_cons_of_mem e he2)
      simp [batch_append_run, he, ih']
  · intro e
    rcases hae : ap e with err2 | u
    · simp [batch_append_run, hae]
    · cases u
      simp [batch_append_run, hae]

/-- Witness for C9: a concrete append oracle failing on stream `"bad"`. -/
theorem claim_C9_witness :
    (∀ e ∈ [mk_write_event 1 0],
      (fun ev : EventData =>
        if ev.stream == "bad" then (Except.error "boom" : Except String Unit)
        else Except.ok ()) e = Except.ok ()) ∧
    (fun ev : EventData =>
      if ev.stream == "bad" then (Except.error "boom" : Except String Unit)
      else Except.ok ()) ⟨"bad", "test", [], []⟩ = Except.error "boom" ∧
    (batch_append_run
        (fun ev : EventData =>
          if ev.stream == "bad" then (Except.error "boom" : Except String Unit)
          else Except.ok ())
        ([mk_write_event 1 0] ++ ⟨"bad", "test", [], []⟩ :: [mk_write_event 1 1])
      = (Except.error "boom", [mk_write_event 1 0] ++ [⟨"bad", "test", [], []⟩]) ∧
      ∀ e, batch_append_run
        (fun ev : EventData =>
          if ev.stream == "bad" then (Except.error "boom" : Except String Unit)
          else Except.ok ()) [e]
        = ((fun ev : EventData =>
            if ev.stream == "bad" then (Except.error "boom" : Except String Unit)
            else Except.ok ()) e, [e])) := by
  refine ⟨?_, rfl, claim_C9 _ _ _ _ _ ?_ rfl⟩
  · intro e he
    rw [List.mem_singleton] at he
    subst he
    rfl
  · intro e he
    rw [List.mem_singleton] at he
    subst he
    rfl

/-- C10: for `unique_streams ≥ 1` every stream index drawn by a task lies in
`[0, unique_streams)`; the zipf hot set is `[0, min(100, max(1,
unique_streams)))`, contained in `[0, unique_streams)`; and the precondition
is necessary: with `unique_streams = 0` the uniform branch draws from the
empty range `[0, 0)` (modelled as the `none`/panic case). -/
theorem claim_C10 (d d2 : String) (us : Nat) (hus : 1 ≤ us) (rng2 : StdRng)
    (hd2 : use_heavy_tail d2 = false) :
    (∀ r : StdRng, ∃ idx rng1, pick_stream_idx d us r = some (idx, rng1) ∧ idx < us) ∧
    hot_set us = min 100 (max us 1) ∧
    hot_set us ≤ us ∧
    pick_stream_idx d2 0 rng2 = none := by
  refine ⟨fun r => pick_stream_idx_lt d hus r, rfl, hot_set_le hus, ?_⟩
  unfold pick_stream_idx
  rw [hd2]
  simp [StdRng.gen_range]

/-- Witness for C10 with ten streams, a zipf workload draw and a uniform
fallback generator. -/
theorem claim_C10_witness :
    1 ≤ 10 ∧ use_heavy_tail "uniform" = false ∧
    ((∀ r : StdRng, ∃ idx rng1,
        pick_stream_idx "zipf" 10 r = some (idx, rng1) ∧ idx < 10) ∧
      hot_set 10 = min 100 (max 10 1) ∧
      hot_set 10 ≤ 10 ∧
      pick_stream_idx "uniform" 0 ⟨7⟩ = none) :=
  ⟨by decide, by decide, claim_C10 "zipf" "uniform" 10 (by decide) ⟨7⟩ (by decide)⟩

/-- C6 as stated is false at `unique_streams = 0`: the code's hot set is
`min 100 (max 1 unique_streams) = 1`, not `min 100 unique_streams = 0`, and
a zipf draw whose Bernoulli coin comes up heads produces the index `0`
although the claimed range `[0, min(100, 0)) = [0, 0)` is empty.  The
generator state `6` is one whose coin comes up heads. -/
theorem claim_C6_counterexample :
    (pick_stream_idx "zipf" 0 ⟨6⟩).map (fun p => p.1) = some 0 ∧
    min 100 (0 : Nat) = 0 := by
  constructor
  · decide
  · decide

/-- C6 (amended): for every task iteration with `unique_streams ≥ 1`, when
the distribution lowercases to `"zipf"` the stream index is drawn — with the
task generator's Bernoulli(0.2) coin — uniformly from
`[0, min(100, max(1, unique_streams)))`, which equals
`[0, min(100, unique_streams))` under the precondition, and otherwise
uniformly from `[0, unique_streams)`; for any other distribution value it is
always drawn uniformly from `[0, unique_streams)`. -/
theorem claim_C6 (d : String) (us : Nat) (rng : StdRng) (hus : 1 ≤ us) :
    (str_to_lower d = "zipf" →
      ∃ coin rng1, rng.gen_bool_fifth = (coin, rng1) ∧
        pick_stream_idx d us rng =
          rng1.gen_range (if coin = true then min 100 us else us)) ∧
    (str_to_lower d ≠ "zipf" →
      pick_stream_idx d us rng = rng.gen_range us) := by
  constructor
  · intro hz
    have hb : use_heavy_tail d = true := by
      simp [use_heavy_tail, hz]
    rcases hcoin : rng.gen_bool_fifth with ⟨coin, rng1⟩
    refine ⟨coin, rng1, rfl, ?_⟩
    unfold pick_stream_idx
    rw [hb, if_pos rfl, hcoin]
    cases coin
    · simp
    · simp [hot_set_of_pos hus]
  · intro hz
    have hb : use_heavy_tail d = false := by
      simp [use_heavy_tail]
      exact fun h => absurd h hz
    unfold pick_stream_idx
    rw [hb]
    simp

/-- Witness for C6 with the mixed-case distribution name `"Zipf"` and five
streams. -/
theorem claim_C6_witness :
    1 ≤ 5 ∧
    ((str_to_lower "Zipf" = "zipf" →
      ∃ coin rng1, StdRng.gen_bool_fifth ⟨0⟩ = (coin, rng1) ∧
        pick_stream_idx "Zipf" 5 ⟨0⟩ =
          rng1.gen_range (if coin = true then min 100 5 else 5)) ∧
    (str_to_lower "Zipf" ≠ "zipf" →
      pick_stream_idx "Zipf" 5 ⟨0⟩ = StdRng.gen_range ⟨0⟩ 5)) :=
  ⟨by decide, claim_C6 "Zipf" 5 ⟨0⟩ (by decide)⟩

/-- A concrete uniform-distribution workload over ten streams, used by the
witnesses and counterexamples below. -/
def wlUniform : Workload :=
  { name := "w"
    duration_seconds := 1
    writers := 1
    readers := 0
    event_size_bytes := 4
    streams := ⟨"uniform", 10⟩ }

/-- The same workload shaped as a readers-only run. -/
def wlReadersOne : Workload :=
  { wlUniform with writers := 0, readers := 1 }

/-- C1 as stated is false for writers: `events_written` is the total
histogram count (`events_written += rec.hist.len()`,
`concurrent_writers.rs` line 91), and the histogram records failed appends
too, so a writers run whose only operation is a failed in-window append
reports `events_written = 1`, not `0`. -/
theorem claim_C1_counterexample :
    (writers_execute wlUniform 42 1000 2000 [[⟨false, 50, 1500⟩]]).map
        (fun r => (r.events_written, r.samples)) =
      some (1, [⟨1500, "append", 50, false⟩]) ∧ (1 : Nat) ≠ 0 := by
  constructor
  · decide
  · decide

/-- C1 (amended): a single failed `append`/`read` inside the measurement
window is recorded as an `ok = false` sample, is counted in the latency
histogram, and the task continues looping; a failed read adds nothing to the
reader task's `events_read` total, but a failed append does count toward
`events_written`, because `events_written` is the histogram count. -/
theorem claim_C1 (wl : Workload) (ms me : Nat)
    (str str' : ReaderState) (o : ReadOutcome)
    (hfail : o.result = none) (hwin : ms ≤ o.now ∧ o.now ≤ me)
    (hstep : reader_step wl ms me str o = some str')
    (rrest : List ReadOutcome)
    (stw stw' : WriterState) (ow : IterOutcome)
    (hwfail : ow.ok = false) (hwwin : ms ≤ ow.now ∧ ow.now ≤ me)
    (hwstep : writer_step wl ms me stw ow = some stw')
    (wrest : List IterOutcome) :
    str'.samples = str.samples ++ [⟨o.now, "read", o.dt_us, false⟩] ∧
    str'.recorder.hist = str.recorder.hist ++ [max o.dt_us 1] ∧
    str'.total_events_read = str.total_events_read ∧
    reader_run wl ms me str (o :: rrest) = reader_run wl ms me str' rrest ∧
    stw'.samples = stw.samples ++ [⟨ow.now, "append", ow.dt_us, false⟩] ∧
    stw'.recorder.hist = stw.recorder.hist ++ [max ow.dt_us 1] ∧
    stw'.recorder.hist.length = stw.recorder.hist.length + 1 ∧
    writer_run wl ms me stw (ow :: wrest) = writer_run wl ms me stw' wrest := by
  obtain ⟨idx, rng1, -, hcase⟩ := reader_step_some wl ms me str str' o hstep
  obtain ⟨idxw, rngw, -, hcasew⟩ := writer_step_some wl ms me stw stw' ow hwstep
  rcases hcase with ⟨-, rfl⟩ | ⟨hn, -⟩
  · rcases hcasew with ⟨-, rfl⟩ | ⟨hnw, -⟩
    · refine ⟨by simp [hfail], rfl, by simp [hfail], ?_, by simp [hwfail], rfl, by simp, ?_⟩
      · exact reader_run_cons wl ms me str _ o rrest hstep
      · exact writer_run_cons wl ms me stw _ ow wrest hwstep
    · exact absurd hwwin hnw
  · exact absurd hwin hn

/-- Witness for C1: a failed read and a failed append at instant 1500 inside
the window `[1000, 2000]`, both on the fresh task state seeded 42. -/
theorem claim_C1_witness :
    (⟨none, 50, 1500⟩ : ReadOutcome).result = none ∧
    (1000 ≤ 1500 ∧ 1500 ≤ 2000) ∧
    reader_step wlUniform 1000 2000 ⟨⟨42⟩, ⟨[]⟩, 0, [], []⟩ ⟨none, 50, 1500⟩
      = some ⟨⟨10481999410520546993⟩, ⟨[50]⟩, 0,
          [⟨1500, "read", 50, false⟩], [3]⟩ ∧
    (⟨false, 50, 1500⟩ : IterOutcome).ok = false ∧
    writer_step wlUniform 1000 2000 ⟨⟨42⟩, ⟨[]⟩, [], []⟩ ⟨false, 50, 1500⟩
      = some ⟨⟨10481999410520546993⟩, ⟨[50]⟩,
          [⟨1500, "append", 50, false⟩], [3]⟩ ∧
    ((⟨⟨10481999410520546993⟩, ⟨[50]⟩, 0, [⟨1500, "read", 50, false⟩], [3]⟩
        : ReaderState).samples
      = ([] : List RawSample) ++ [⟨1500, "read", 50, false⟩] ∧
     (⟨⟨10481999410520546993⟩, ⟨[50]⟩, 0, [⟨1500, "read", 50, false⟩], [3]⟩
        : ReaderState).recorder.hist = ([] : List Nat) ++ [max 50 1] ∧
     (⟨⟨10481999410520546993⟩, ⟨[50]⟩, 0, [⟨1500, "read", 50, false⟩], [3]⟩
        : ReaderState).total_events_read = (0 : Nat) ∧
     reader_run wlUniform 1000 2000 ⟨⟨42⟩, ⟨[]⟩, 0, [], []⟩
         ([⟨none, 50, 1500⟩] : List ReadOutcome)
       = reader_run wlUniform 1000 2000
          ⟨⟨10481999410520546993⟩, ⟨[50]⟩, 0, [⟨1500, "read", 50, false⟩], [3]⟩ [] ∧
     (⟨⟨10481999410520546993⟩, ⟨[50]⟩, [⟨1500, "append", 50, false⟩], [3]⟩
        : WriterState).samples
      = ([] : List RawSample) ++ [⟨1500, "append", 50, false⟩] ∧
     (⟨⟨10481999410520546993⟩, ⟨[50]⟩, [⟨1500, "append", 50, false⟩], [3]⟩
        : WriterState).recorder.hist = ([] : List Nat) ++ [max 50 1] ∧
     (⟨⟨10481999410520546993⟩, ⟨[50]⟩, [⟨1500, "append", 50, false⟩], [3]⟩
        : WriterState).recorder.hist.length = ([] : List Nat).length + 1 ∧
     writer_run wlUniform 1000 2000 ⟨⟨42⟩, ⟨[]⟩, [], []⟩
         ([⟨false, 50, 1500⟩] : List IterOutcome)
       = writer_run wlUniform 1000 2000
          ⟨⟨10481999410520546993⟩, ⟨[50]⟩, [⟨1500, "append", 50, false⟩], [3]⟩ []) :=
  ⟨rfl, by decide, by decide, rfl, by decide,
    claim_C1 wlUniform 1000 2000 ⟨⟨42⟩, ⟨[]⟩, 0, [], []⟩
      ⟨⟨10481999410520546993⟩, ⟨[50]⟩, 0, [⟨1500, "read", 50, false⟩], [3]⟩
      ⟨none, 50, 1500⟩ rfl (by decide) (by decide) []
      ⟨⟨42⟩, ⟨[]⟩, [], []⟩
      ⟨⟨10481999410520546993⟩, ⟨[50]⟩, [⟨1500, "append", 50, false⟩], [3]⟩
      ⟨false, 50, 1500⟩ rfl (by decide) (by decide) []⟩

lemma reader_run_hist_samples (wl : Workload) (ms me : Nat) :
    ∀ (tr : List ReadOutcome) (st st' : ReaderState),
      reader_run wl ms me st tr = some st' →
      st'.recorder.hist.length + st.samples.length
        = st'.samples.length + st.recorder.hist.length := by
  intro tr
  induction tr with
  | nil =>
    intro st st' h
    injection h with h
    subst h
    omega
  | cons o rest ih =>
    intro st st' h
    unfold reader_run at h
    rcases hstep : reader_step wl ms me st o with _ | st1 <;> rw [hstep] at h
    · exact absurd h (by simp)
    · have h2 := ih st1 st' h
      obtain ⟨idx, rng1, -, hcase⟩ := reader_step_some wl ms me st st1 o hstep
      rcases hcase with ⟨-, rfl⟩ | ⟨-, rfl⟩ <;> simp at h2 ⊢ <;> omega

lemma readers_tasks_mem (wl : Workload) (ms me : Nat) :
    ∀ (traces : List (List ReadOutcome)) (seed : Nat) (sts : List ReaderState),
      readers_tasks wl seed ms me traces = some sts →
      ∀ st ∈ sts, ∃ s2 tr, reader_task wl s2 ms me tr = some st := by
  intro traces
  induction traces with
  | nil =>
    intro seed sts h
    injection h with h
    subst h
    simp
  | cons tr rest ih =>
    intro seed sts h
    unfold readers_tasks at h
    rcases h1 : reader_task wl seed ms me tr with _ | st <;> rw [h1] at h
    · exact absurd h (by simp)
    · rcases h2 : readers_tasks wl (seed + 1) ms me rest with _ | sts' <;> rw [h2] at h
      · exact absurd h (by simp)
      · injection h with h
        subst h
        intro st0 hst0
        rcases List.mem_cons.mp hst0 with rfl | hmem
        · exact ⟨seed, tr, h1⟩
        · exact ih (seed + 1) sts' h2 st0 hmem

/-- C2 as stated is false for reader runs: `events_read` counts the events
returned by successful reads (up to 100 per operation,
`concurrent_readers.rs` line 73), while the histogram counts in-window read
operations, so a single in-window read returning two events yields a
histogram total of 1 against `events_written + events_read = 2`. -/
theorem claim_C2_counterexample :
    (readers_execute wlReadersOne 42 1000 2000 [[⟨some 2, 50, 1500⟩]]).map
        (fun r => (r.overall.hist.length, r.events_written + r.events_read)) =
      some (1, 2) ∧ (1 : Nat) ≠ 2 := by
  constructor
  · decide
  · decide

/-- C2 (amended): for every completed `concurrent_writers` run the total
count of the merged histogram equals `events_written + events_read` (with
`events_read = 0`); for a `concurrent_readers` run it instead equals the
number of in-window read operations — the length of the sample vector —
which need not equal `events_read`. -/
theorem claim_C2 (wl wl2 : Workload) (seed seed2 ms me ms2 me2 : Nat)
    (traces : List (List IterOutcome)) (r : WritersResult)
    (h : writers_execute wl seed ms me traces = some r)
    (rtraces : List (List ReadOutcome)) (rr : ReadersResult)
    (hr : readers_execute wl2 seed2 ms2 me2 rtraces = some rr) :
    r.overall.hist.length = r.events_written + r.events_read ∧
    rr.overall.hist.length = rr.samples.length := by
  constructor
  · unfold writers_execute at h
    rcases hts : writers_tasks wl seed ms me traces with _ | sts <;> rw [hts] at h
    · exact absurd h (by simp)
    · injection h with h
      subst h
      simp only [cat_length, List.map_map]
      rfl
  · unfold readers_execute at hr
    rcases hts : readers_tasks wl2 seed2 ms2 me2 rtraces with _ | sts <;> rw [hts] at hr
    · exact absurd hr (by simp)
    · injection hr with hr
      subst hr
      have hmem := readers_tasks_mem wl2 ms2 me2 rtraces seed2 sts hts
      have heach : ∀ st ∈ sts, st.recorder.hist.length = st.samples.length := by
        intro st hst
        obtain ⟨s2, tr, htask⟩ := hmem st hst
        have := reader_run_hist_samples wl2 ms2 me2 tr _ st htask
        simpa using this
      simp only [cat_length, List.map_map]
      have : sts.map (List.length ∘ fun s => s.recorder.hist)
          = sts.map (List.length ∘ fun s => s.samples) := by
        apply List.map_congr_left
        intro st hst
        exact heach st hst
      rw [this]

/-- Witness for C2: a writers run with one successful in-window append and a
readers run with one in-window read returning two events. -/
theorem claim_C2_witness :
    writers_execute wlUniform 42 1000 2000 [[⟨true, 5, 1500⟩]]
      = some ⟨⟨[5]⟩, 1, 0, [⟨1500, "append", 5, true⟩]⟩ ∧
    readers_execute wlReadersOne 42 1000 2000 [[⟨some 2, 50, 1500⟩]]
      = some ⟨⟨[50]⟩, 0, 2, [⟨1500, "read", 50, true⟩]⟩ ∧
    ((⟨⟨[5]⟩, 1, 0, [⟨1500, "append", 5, true⟩]⟩
        : WritersResult).overall.hist.length
      = (⟨⟨[5]⟩, 1, 0, [⟨1500, "append", 5, true⟩]⟩ : WritersResult).events_written
        + (⟨⟨[5]⟩, 1, 0, [⟨1500, "append", 5, true⟩]⟩ : WritersResult).events_read ∧
     (⟨⟨[50]⟩, 0, 2, [⟨1500, "read", 50, true⟩]⟩
        : ReadersResult).overall.hist.length
      = (⟨⟨[50]⟩, 0, 2, [⟨1500, "read", 50, true⟩]⟩ : ReadersResult).samples.length) :=
  ⟨by decide, by decide,
    claim_C2 wlUniform wlReadersOne 42 42 1000 2000 1000 2000 [[⟨true, 5, 1500⟩]]
      ⟨⟨[5]⟩, 1, 0, [⟨1500, "append", 5, true⟩]⟩ (by decide)
      [[⟨some 2, 50, 1500⟩]]
      ⟨⟨[50]⟩, 0, 2, [⟨1500, "read", 50, true⟩]⟩ (by decide)⟩

/-- C3 as stated is false: `RawSample.latency_us` is the raw
`dt.as_micros()` value (`concurrent_writers.rs` line 77), so an append
completing in under a microsecond is pushed with `latency_us = 0`; only the
histogram value is clamped to at least 1. -/
theorem claim_C3_counterexample :
    (writers_execute wlUniform 42 1000 2000 [[⟨true, 0, 1500⟩]]).map
        (fun r => (r.samples.map fun s => s.latency_us, r.overall.hist)) =
      some ([0], [1]) ∧ ¬(1 ≤ (0 : Nat)) := by
  constructor
  · decide
  · decide

/-- C3 (amended): every value recorded into a task's latency histogram is at
least 1 (the recorder clamps with `max(us, 1)`), while every `RawSample`
pushed onto the shared buffer carries the raw microsecond latency of some
traced operation — a value that can be 0. -/
theorem claim_C3 (wl : Workload) (seed ms me : Nat)
    (wtrace : List IterOutcome) (ws : WriterState)
    (hw : writer_task wl seed ms me wtrace = some ws)
    (rtrace : List ReadOutcome) (rs : ReaderState)
    (hr : reader_task wl seed ms me rtrace = some rs) :
    (∀ v ∈ ws.recorder.hist, 1 ≤ v) ∧
    (∀ s ∈ ws.samples, ∃ o ∈ wtrace, s = ⟨o.now, "append", o.dt_us, o.ok⟩) ∧
    (∀ v ∈ rs.recorder.hist, 1 ≤ v) ∧
    (∀ s ∈ rs.samples, ∃ o ∈ rtrace, s = ⟨o.now, "read", o.dt_us, o.result.isSome⟩) := by
  obtain ⟨hws, hwv⟩ := writer_run_provenance wl ms me wtrace _ ws hw
  obtain ⟨hrs, hrv⟩ := reader_run_provenance wl ms me rtrace _ rs hr
  refine ⟨?_, ?_, ?_, ?_⟩
  · intro v hv
    rcases hwv v hv with h | ⟨o, -, rfl⟩
    · exact absurd h (by simp [writer_task, reader_task, LatencyRecorder.new])
    · exact le_max_right _ _
  · intro s hs
    rcases hws s hs with h | ⟨o, ho, -, rfl⟩
    · exact absurd h (by simp [writer_task, reader_task, LatencyRecorder.new])
    · exact ⟨o, ho, rfl⟩
  · intro v hv
    rcases hrv v hv with h | ⟨o, -, rfl⟩
    · exact absurd h (by simp [writer_task, reader_task, LatencyRecorder.new])
    · exact le_max_right _ _
  · intro s hs
    rcases hrs s hs with h | ⟨o, ho, -, rfl⟩
    · exact absurd h (by simp [writer_task, reader_task, LatencyRecorder.new])
    · exact ⟨o, ho, rfl⟩

/-- Witness for C3: one successful in-window append and one successful
in-window read on the task state seeded 42. -/
theorem claim_C3_witness :
    writer_task wlUniform 42 1000 2000 [⟨true, 5, 1500⟩]
      = some ⟨⟨10481999410520546993⟩, ⟨[5]⟩, [⟨1500, "append", 5, true⟩], [3]⟩ ∧
    reader_task wlUniform 42 1000 2000 [⟨some 3, 5, 1500⟩]
      = some ⟨⟨10481999410520546993⟩, ⟨[5]⟩, 3, [⟨1500, "read", 5, true⟩], [3]⟩ ∧
    ((∀ v ∈ (⟨⟨10481999410520546993⟩, ⟨[5]⟩, [⟨1500, "append", 5, true⟩], [3]⟩
        : WriterState).recorder.hist, 1 ≤ v) ∧
     (∀ s ∈ (⟨⟨10481999410520546993⟩, ⟨[5]⟩, [⟨1500, "append", 5, true⟩], [3]⟩
        : WriterState).samples,
        ∃ o ∈ [(⟨true, 5, 1500⟩ : IterOutcome)],
          s = ⟨o.now, "append", o.dt_us, o.ok⟩) ∧
     (∀ v ∈ (⟨⟨10481999410520546993⟩, ⟨[5]⟩, 3, [⟨1500, "read", 5, true⟩], [3]⟩
        : ReaderState).recorder.hist, 1 ≤ v) ∧
     (∀ s ∈ (⟨⟨10481999410520546993⟩, ⟨[5]⟩, 3, [⟨1500, "read", 5, true⟩], [3]⟩
        : ReaderState).samples,
        ∃ o ∈ [(⟨some 3, 5, 1500⟩ : ReadOutcome)],
          s = ⟨o.now, "read", o.dt_us, o.result.isSome⟩)) :=
  ⟨by decide, by decide,
    claim_C3 wlUniform 42 1000 2000 [⟨true, 5, 1500⟩]
      ⟨⟨10481999410520546993⟩, ⟨[5]⟩, [⟨1500, "append", 5, true⟩], [3]⟩ (by decide)
      [⟨some 3, 5, 1500⟩]
      ⟨⟨10481999410520546993⟩, ⟨[5]⟩, 3, [⟨1500, "read", 5, true⟩], [3]⟩ (by decide)⟩

/-- C4: the runner's clock puts `measurement_start` one second after
`start_at`, `measurement_end` a further `duration_seconds` later and
`end_at` one second after that; every sample captured by a writer or reader
task has its capture instant inside `[measurement_start, measurement_end]`,
and an operation completing outside that window (even one the task still
performs before `end_at`) produces no sample. -/
theorem claim_C4 (start dur : Nat) (wl : Workload) (seed : Nat)
    (wtrace : List IterOutcome) (ws : WriterState)
    (hw : writer_task wl seed (run_clock start dur).measurement_start
        (run_clock start dur).measurement_end wtrace = some ws)
    (rtrace : List ReadOutcome) (rs : ReaderState)
    (hr : reader_task wl seed (run_clock start dur).measurement_start
        (run_clock start dur).measurement_end rtrace = some rs)
    (stw stw' : WriterState) (o : IterOutcome)
    (hout : ¬((run_clock start dur).measurement_start ≤ o.now ∧
        o.now ≤ (run_clock start dur).measurement_end))
    (hstep : writer_step wl (run_clock start dur).measurement_start
        (run_clock start dur).measurement_end stw o = some stw') :
    (run_clock start dur).measurement_start = start + 1000 ∧
    (run_clock start dur).measurement_end = start + 1000 + dur * 1000 ∧
    (run_clock start dur).end_at = (run_clock start dur).measurement_end + 1000 ∧
    (∀ s ∈ ws.samples,
      (run_clock start dur).measurement_start ≤ s.t_ms ∧
        s.t_ms ≤ (run_clock start dur).measurement_end) ∧
    (∀ s ∈ rs.samples,
      (run_clock start dur).measurement_start ≤ s.t_ms ∧
        s.t_ms ≤ (run_clock start dur).measurement_end) ∧
    stw'.samples = stw.samples := by
  obtain ⟨hws, -⟩ := writer_run_provenance wl _ _ wtrace _ ws hw
  obtain ⟨hrs, -⟩ := reader_run_provenance wl _ _ rtrace _ rs hr
  refine ⟨rfl, ?_, ?_, ?_, ?_, ?_⟩
  · show start + 1000 + dur * 1000 = start + 1000 + dur * 1000
    rfl
  · show start + (dur * 1000 + 1000 + 1000) = start + 1000 + dur * 1000 + 1000
    omega
  · intro s hs
    rcases hws s hs with h | ⟨o2, -, hwin, rfl⟩
    · exact absurd h (by simp [writer_task, LatencyRecorder.new])
    · exact hwin
  · intro s hs
    rcases hrs s hs with h | ⟨o2, -, hwin, rfl⟩
    · exact absurd h (by simp [reader_task, LatencyRecorder.new])
    · exact hwin
  · obtain ⟨idx, rng1, -, hcase⟩ := writer_step_some wl _ _ stw stw' o hstep
    rcases hcase with ⟨hwin, -⟩ | ⟨-, rfl⟩
    · exact absurd hwin hout
    · rfl

/-- Witness for C4: a run clock starting at 0 with a one-second window, one
in-window append and read at instant 1500, and an append completing at
instant 10 — during warmup, before the window opens. -/
theorem claim_C4_witness :
    writer_task wlUniform 42 (run_clock 0 1).measurement_start
        (run_clock 0 1).measurement_end [⟨true, 5, 1500⟩]
      = some ⟨⟨10481999410520546993⟩, ⟨[5]⟩, [⟨1500, "append", 5, true⟩], [3]⟩ ∧
    reader_task wlUniform 42 (run_clock 0 1).measurement_start
        (run_clock 0 1).measurement_end [⟨some 3, 5, 1500⟩]
      = some ⟨⟨10481999410520546993⟩, ⟨[5]⟩, 3, [⟨1500, "read", 5, true⟩], [3]⟩ ∧
    ¬((run_clock 0 1).measurement_start ≤ (10 : Nat) ∧
        (10 : Nat) ≤ (run_clock 0 1).measurement_end) ∧
    writer_step wlUniform (run_clock 0 1).measurement_start
        (run_clock 0 1).measurement_end ⟨⟨42⟩, ⟨[]⟩, [], []⟩ ⟨true, 5, 10⟩
      = some ⟨⟨10481999410520546993⟩, ⟨[]⟩, [], [3]⟩ ∧
    ((run_clock 0 1).measurement_start = 0 + 1000 ∧
     (run_clock 0 1).measurement_end = 0 + 1000 + 1 * 1000 ∧
     (run_clock 0 1).end_at = (run_clock 0 1).measurement_end + 1000 ∧
     (∀ s ∈ (⟨⟨10481999410520546993⟩, ⟨[5]⟩, [⟨1500, "append", 5, true⟩], [3]⟩
        : WriterState).samples,
       (run_clock 0 1).measurement_start ≤ s.t_ms ∧
         s.t_ms ≤ (run_clock 0 1).measurement_end) ∧
     (∀ s ∈ (⟨⟨10481999410520546993⟩, ⟨[5]⟩, 3, [⟨1500, "read", 5, true⟩], [3]⟩
        : ReaderState).samples,
       (run_clock 0 1).measurement_start ≤ s.t_ms ∧
         s.t_ms ≤ (run_clock 0 1).measurement_end) ∧
     (⟨⟨10481999410520546993⟩, ⟨[]⟩, [], [3]⟩ : WriterState).samples
       = (⟨⟨42⟩, ⟨[]⟩, [], []⟩ : WriterState).samples) :=
  ⟨by decide, by decide, by decide, by decide,
    claim_C4 0 1 wlUniform 42 [⟨true, 5, 1500⟩]
      ⟨⟨10481999410520546993⟩, ⟨[5]⟩, [⟨1500, "append", 5, true⟩], [3]⟩ (by decide)
      [⟨some 3, 5, 1500⟩]
      ⟨⟨10481999410520546993⟩, ⟨[5]⟩, 3, [⟨1500, "read", 5, true⟩], [3]⟩ (by decide)
      ⟨⟨42⟩, ⟨[]⟩, [], []⟩ ⟨⟨10481999410520546993⟩, ⟨[]⟩, [], [3]⟩ ⟨true, 5, 10⟩
      (by decide) (by decide)⟩

lemma setup_streams_loop_length (sz eps : Nat) :
    ∀ n, (setup_streams_loop sz eps n).length = n * eps := by
  intro n
  induction n with
  | zero => simp [setup_streams_loop]
  | succ n ih =>
    show (setup_streams_loop sz eps n ++
        List.replicate eps (mk_setup_event sz n)).length = (n + 1) * eps
    simp [ih, Nat.succ_mul]

lemma setup_streams_loop_block (sz eps : Nat) :
    ∀ (n i : Nat), i < n →
      ((setup_streams_loop sz eps n).drop (i * eps)).take eps
        = List.replicate eps (mk_setup_event sz i) := by
  intro n
  induction n with
  | zero => intro i hi; omega
  | succ n ih =>
    intro i hi
    have hlen := setup_streams_loop_length sz eps n
    show ((setup_streams_loop sz eps n ++
        List.replicate eps (mk_setup_event sz n)).drop (i * eps)).take eps = _
    rcases Nat.lt_or_ge i n with hin | hin
    · have hmul : i * eps + eps ≤ n * eps := by
        have h := Nat.mul_le_mul_right eps (show i + 1 ≤ n by omega)
        simpa [Nat.succ_mul] using h
      rw [List.drop_append_eq_append_drop, List.take_append_eq_append_take]
      have h0 : i * eps - (setup_streams_loop sz eps n).length = 0 := by omega
      have h2 : ((setup_streams_loop sz eps n).drop (i * eps)).length
          = n * eps - i * eps := by simp [hlen]
      have h3 : eps - ((setup_streams_loop sz eps n).drop (i * eps)).length = 0 := by omega
      rw [h0, h3]
      simp [ih i hin]
    · have hieq : i = n := by omega
      rw [hieq]
      have hA : (setup_streams_loop sz eps n).drop (n * eps) = [] :=
        List.drop_eq_nil_of_le (by omega)
      rw [List.drop_append_eq_append_drop, hA]
      have h0 : n * eps - (setup_streams_loop sz eps n).length = 0 := by omega
      rw [h0]
      simp

/-- C5: when `workload.setup` is present the setup phase (modelled from the
spec, see `setup_phase_appends`) uses
`num_streams = setup.prepopulate_streams ?? workload.streams.unique_streams`,
computes `events_per_stream` as the ceiling of
`events_to_prepopulate / num_streams` (characterized below by the two
bracketing inequalities), and the ordered list of appends it issues on its
one setup client consists, for each `i` below `num_streams` in ascending
order, of a block of `events_per_stream` fixed-payload events for
`stream-{i}`. -/
theorem claim_C5 (setup : SetupConfig) (us sz : Nat)
    (hns : 1 ≤ setup_num_streams setup us) :
    setup_num_streams setup us = setup.prepopulate_streams.getD us ∧
    setup.events_to_prepopulate
      ≤ setup_num_streams setup us * setup_events_per_stream setup us ∧
    setup_num_streams setup us * setup_events_per_stream setup us
      < setup.events_to_prepopulate + setup_num_streams setup us ∧
    (setup_phase_appends setup us sz).length
      = setup_num_streams setup us * setup_events_per_stream setup us ∧
    ∀ i, i < setup_num_streams setup us →
      ((setup_phase_appends setup us sz).drop
          (i * setup_events_per_stream setup us)).take
          (setup_events_per_stream setup us)
        = List.replicate (setup_events_per_stream setup us) (mk_setup_event sz i) := by
  have hdm := Nat.div_add_mod
    (setup.events_to_prepopulate + setup_num_streams setup us - 1)
    (setup_num_streams setup us)
  have hmlt : (setup.events_to_prepopulate + setup_num_streams setup us - 1)
      % setup_num_streams setup us < setup_num_streams setup us :=
    Nat.mod_lt _ (by omega)
  refine ⟨rfl, ?_, ?_, ?_, ?_⟩
  · show setup.events_to_prepopulate
      ≤ setup_num_streams setup us *
        ((setup.events_to_prepopulate + setup_num_streams setup us - 1)
          / setup_num_streams setup us)
    omega
  · show setup_num_streams setup us *
        ((setup.events_to_prepopulate + setup_num_streams setup us - 1)
          / setup_num_streams setup us)
      < setup.events_to_prepopulate + setup_num_streams setup us
    omega
  · have := setup_streams_loop_length sz (setup_events_per_stream setup us)
      (setup_num_streams setup us)
    simpa [setup_phase_appends] using this
  · intro i hi
    exact setup_streams_loop_block sz (setup_events_per_stream setup us)
      (setup_num_streams setup us) i hi

/-- Witness for C5: prepopulate 7 events across 3 streams (so
`events_per_stream = 3`) with payload size 2. -/
theorem claim_C5_witness :
    1 ≤ setup_num_streams ⟨7, some 3⟩ 10 ∧
    (setup_num_streams ⟨7, some 3⟩ 10 = (some 3).getD 10 ∧
     7 ≤ setup_num_streams ⟨7, some 3⟩ 10 * setup_events_per_stream ⟨7, some 3⟩ 10 ∧
     setup_num_streams ⟨7, some 3⟩ 10 * setup_events_per_stream ⟨7, some 3⟩ 10
       < 7 + setup_num_streams ⟨7, some 3⟩ 10 ∧
     (setup_phase_appends ⟨7, some 3⟩ 10 2).length
       = setup_num_streams ⟨7, some 3⟩ 10 * setup_events_per_stream ⟨7, some 3⟩ 10 ∧
     ∀ i, i < setup_num_streams ⟨7, some 3⟩ 10 →
       ((setup_phase_appends ⟨7, some 3⟩ 10 2).drop
           (i * setup_events_per_stream ⟨7, some 3⟩ 10)).take
           (setup_events_per_stream ⟨7, some 3⟩ 10)
         = List.replicate (setup_events_per_stream ⟨7, some 3⟩ 10)
             (mk_setup_event 2 i)) :=
  ⟨by decide, claim_C5 ⟨7, some 3⟩ 10 2 (by decide)⟩

/-- C7: stream selection is deterministic.  Two runs of a writer (or
reader) task with the same `(seed, distribution, unique_streams)` draw
bit-identical stream-index sequences up to any common operation count `k`,
whatever the per-run timings and operation outcomes; and the per-task
generators are seeded `seed + task_index` with task indices dense from 0, as
witnessed by the spawn loops of both strategies. -/
theorem claim_C7 (wl : Workload) (seed k ms1 me1 ms2 me2 : Nat)
    (t1 t2 : List IterOutcome) (s1 s2 : WriterState)
    (h1 : writer_task wl seed ms1 me1 t1 = some s1)
    (h2 : writer_task wl seed ms2 me2 t2 = some s2)
    (hk1 : k ≤ t1.length) (hk2 : k ≤ t2.length)
    (seedr msr1 mer1 msr2 mer2 : Nat)
    (r1 r2 : List ReadOutcome) (q1 q2 : ReaderState)
    (hq1 : reader_task wl seedr msr1 mer1 r1 = some q1)
    (hq2 : reader_task wl seedr msr2 mer2 r2 = some q2)
    (hkr1 : k ≤ r1.length) (hkr2 : k ≤ r2.length)
    (seed0 : Nat) (traces : List (List IterOutcome)) (sts : List WriterState)
    (hts : writers_tasks wl seed0 ms1 me1 traces = some sts)
    (rtraces : List (List ReadOutcome)) (rsts : List ReaderState)
    (hrts : readers_tasks wl seed0 msr1 mer1 rtraces = some rsts) :
    s1.draws.take k = s2.draws.take k ∧
    q1.draws.take k = q2.draws.take k ∧
    (∀ i tr, traces.get? i = some tr →
      ∃ st, writer_task wl (seed0 + i) ms1 me1 tr = some st ∧ sts.get? i = some st) ∧
    (∀ i tr, rtraces.get? i = some tr →
      ∃ st, reader_task wl (seed0 + i) msr1 mer1 tr = some st ∧ rsts.get? i = some st) := by
  refine ⟨?_, ?_, (writers_tasks_get wl ms1 me1 traces seed0 sts hts).2,
    (readers_tasks_get wl msr1 mer1 rtraces seed0 rsts hrts).2⟩
  · obtain ⟨l1, hl1, hd1⟩ := writer_run_draws wl ms1 me1 t1 _ s1 h1
    obtain ⟨l2, hl2, hd2⟩ := writer_run_draws wl ms2 me2 t2 _ s2 h2
    have e1 := stream_idx_seq_take wl.streams.distribution wl.streams.unique_streams
      k _ t1.length l1 hl1 hk1
    have e2 := stream_idx_seq_take wl.streams.distribution wl.streams.unique_streams
      k _ t2.length l2 hl2 hk2
    rw [e1] at e2
    injection e2 with e2
    simp only [List.nil_append] at hd1 hd2
    rw [hd1, hd2, e2]
  · obtain ⟨l1, hl1, hd1⟩ := reader_run_draws wl msr1 mer1 r1 _ q1 hq1
    obtain ⟨l2, hl2, hd2⟩ := reader_run_draws wl msr2 mer2 r2 _ q2 hq2
    have e1 := stream_idx_seq_take wl.streams.distribution wl.streams.unique_streams
      k _ r1.length l1 hl1 hkr1
    have e2 := stream_idx_seq_take wl.streams.distribution wl.streams.unique_streams
      k _ r2.length l2 hl2 hkr2
    rw [e1] at e2
    injection e2 with e2
    simp only [List.nil_append] at hd1 hd2
    rw [hd1, hd2, e2]

/-- Witness for C7: two writer runs and two reader runs seeded 42 with
different timings and outcomes draw the same first stream index, and
one-task spawn lists seed task 0 with `seed + 0`. -/
theorem claim_C7_witness :
    writer_task wlUniform 42 1000 2000 [⟨true, 5, 1500⟩]
      = some ⟨⟨10481999410520546993⟩, ⟨[5]⟩, [⟨1500, "append", 5, true⟩], [3]⟩ ∧
    writer_task wlUniform 42 1000 2000 [⟨false, 7, 10⟩]
      = some ⟨⟨10481999410520546993⟩, ⟨[]⟩, [], [3]⟩ ∧
    (1 ≤ ([⟨true, 5, 1500⟩] : List IterOutcome).length ∧
     1 ≤ ([⟨false, 7, 10⟩] : List IterOutcome).length) ∧
    reader_task wlUniform 42 1000 2000 [⟨some 3, 5, 1500⟩]
      = some ⟨⟨10481999410520546993⟩, ⟨[5]⟩, 3, [⟨1500, "read", 5, true⟩], [3]⟩ ∧
    reader_task wlUniform 42 1000 2000 [⟨none, 9, 10⟩]
      = some ⟨⟨10481999410520546993⟩, ⟨[]⟩, 0, [], [3]⟩ ∧
    writers_tasks wlUniform 42 1000 2000 [[⟨true, 5, 1500⟩]]
      = some [⟨⟨10481999410520546993⟩, ⟨[5]⟩, [⟨1500, "append", 5, true⟩], [3]⟩] ∧
    readers_tasks wlUniform 42 1000 2000 [[⟨some 3, 5, 1500⟩]]
      = some [⟨⟨10481999410520546993⟩, ⟨[5]⟩, 3, [⟨1500, "read", 5, true⟩], [3]⟩] ∧
    ((⟨⟨10481999410520546993⟩, ⟨[5]⟩, [⟨1500, "append", 5, true⟩], [3]⟩
        : WriterState).draws.take 1
      = (⟨⟨10481999410520546993⟩, ⟨[]⟩, [], [3]⟩ : WriterState).draws.take 1 ∧
     (⟨⟨10481999410520546993⟩, ⟨[5]⟩, 3, [⟨1500, "read", 5, true⟩], [3]⟩
        : ReaderState).draws.take 1
      = (⟨⟨10481999410520546993⟩, ⟨[]⟩, 0, [], [3]⟩ : ReaderState).draws.take 1 ∧
     (∀ i tr, ([[⟨true, 5, 1500⟩]] : List (List IterOutcome)).get? i = some tr →
       ∃ st, writer_task wlUniform (42 + i) 1000 2000 tr = some st ∧
         ([⟨⟨10481999410520546993⟩, ⟨[5]⟩, [⟨1500, "append", 5, true⟩], [3]⟩]
           : List WriterState).get? i = some st) ∧
     (∀ i tr, ([[⟨some 3, 5, 1500⟩]] : List (List ReadOutcome)).get? i = some tr →
       ∃ st, reader_task wlUniform (42 + i) 1000 2000 tr = some st ∧
         ([⟨⟨10481999410520546993⟩, ⟨[5]⟩, 3, [⟨1500, "read", 5, true⟩], [3]⟩]
           : List ReaderState).get? i = some st)) :=
  ⟨by decide, by decide, ⟨by decide, by decide⟩, by decide, by decide, by decide, by decide,
    claim_C7 wlUniform 42 1 1000 2000 1000 2000
      [⟨true, 5, 1500⟩] [⟨false, 7, 10⟩]
      ⟨⟨10481999410520546993⟩, ⟨[5]⟩, [⟨1500, "append", 5, true⟩], [3]⟩
      ⟨⟨10481999410520546993⟩, ⟨[]⟩, [], [3]⟩
      (by decide) (by decide) (by decide) (by decide)
      42 1000 2000 1000 2000
      [⟨some 3, 5, 1500⟩] [⟨none, 9, 10⟩]
      ⟨⟨10481999410520546993⟩, ⟨[5]⟩, 3, [⟨1500, "read", 5, true⟩], [3]⟩
      ⟨⟨10481999410520546993⟩, ⟨[]⟩, 0, [], [3]⟩
      (by decide) (by decide) (by decide) (by decide)
      42 [[⟨true, 5, 1500⟩]]
      [⟨⟨10481999410520546993⟩, ⟨[5]⟩, [⟨1500, "append", 5, true⟩], [3]⟩]
      (by decide)
      [[⟨some 3, 5, 1500⟩]]
      [⟨⟨10481999410520546993⟩, ⟨[5]⟩, 3, [⟨1500, "read", 5, true⟩], [3]⟩]
      (by decide)⟩
